import Mathlib

/-!
Verification of the Web-Builder response-driven file-materialization
protocol and retry discipline.

JavaScript strings are embedded as `List Char` (`Str`), and the JS string
methods used by the source (`split`, `trim`, `startsWith`, `join`) are
given explicit executable definitions below, so every scanner/materializer
function is a direct transcription of the corresponding JS function.
-/

/-- JS strings, embedded as lists of characters. -/
abbrev Str := List Char

/-- Coerce a Lean string literal to the embedded string type. -/
def str (s : String) : Str := s.data

/-- The whitespace test used by `String.prototype.trim` (restricted to the
ASCII whitespace that occurs in this repository's data). -/
def isWsChar (c : Char) : Bool :=
  c = ' ' || c = '\t' || c = '\n' || c = '\r'

/-- JS `s.trim()`: strip leading and trailing whitespace. -/
def trimChars (s : Str) : Str :=
  ((s.dropWhile isWsChar).reverse.dropWhile isWsChar).reverse

/-- JS `s.split(sep)` for a one-character separator: always returns at
least one group; `''.split(sep)` is `['']`. -/
def splitChar (sep : Char) : Str → List Str
  | [] => [[]]
  | c :: cs =>
    if c = sep then [] :: splitChar sep cs
    else
      match splitChar sep cs with
      | [] => [[c]]
      | g :: gs => (c :: g) :: gs

/-- JS `array.join('\n')` on a list of lines. -/
def joinLines : List Str → Str
  | [] => []
  | [l] => l
  | l :: ls => l ++ '\n' :: joinLines ls

/-- The literal `'```folder:'` prefix tested by `line.startsWith`. -/
def folderMarker : Str := str "```folder:"

/-- The literal `'```file:'` prefix tested by `line.startsWith`. -/
def fileMarker : Str := str "```file:"

/-- The bare close fence `'```'`. -/
def fence : Str := str "```"

/-- `line.split(':')[1].trim()` — the path extraction used by both
`processFileCreation` (AiBuild.js:1519,1525) and `implementEvolution`
(UltraAdvancedWebGenerator.js:140). `[1]` exists whenever the line
contains a colon, which the marker prefixes guarantee. -/
def extractPath (line : Str) : Str :=
  trimChars ((splitChar ':' line).getD 1 [])

/-- A filesystem operation requested by the scanner: `createFolder(path)`
or `writeFile(path, content)`. -/
inductive FsOp where
  | folder (path : Str)
  | write (path : Str) (content : Str)
deriving DecidableEq, Repr

/-- The loop body of `processFileCreation` (AiBuild.js:1517-1538),
purified: state is `currentFilePath` (the empty list embeds both JS
`null` and the falsy `''`) and `currentFileContent`; the returned list
records the materializer calls in the order the loop awaits them,
including the final flush of an unterminated block (AiBuild.js:1536-1538). -/
def scanGo : List Str → Str → List Str → List FsOp
  | [], cur, buf =>
    if cur = [] then [] else [FsOp.write cur (joinLines buf)]
  | line :: rest, cur, buf =>
    if folderMarker.isPrefixOf line then
      FsOp.folder (extractPath line) :: scanGo rest cur buf
    else if fileMarker.isPrefixOf line then
      (if cur = [] then [] else [FsOp.write cur (joinLines buf)]) ++
        scanGo rest (extractPath line) []
    else if line = fence ∧ cur ≠ [] then
      FsOp.write cur (joinLines buf) :: scanGo rest [] []
    else if cur ≠ [] then
      scanGo rest cur (buf ++ [line])
    else
      scanGo rest cur buf

/-- `processFileCreation(response)` (AiBuild.js:1512-1539; the copies in
advanced_self_upgrading_assistant.js:275-304 and unnamed/part_000 are
character-identical scanners): split on newline, then run the loop with
`currentFilePath = null`, `currentFileContent = []`. -/
def processFileCreation (response : Str) : List FsOp :=
  scanGo (splitChar '\n' response) [] []

/-- The loop body of `implementEvolution`
(UltraAdvancedWebGenerator.js:135-151): same open/buffer discipline, but
there is no folder branch and ANY line starting with the bare fence
closes an open block (line 142 tests `line.startsWith('```')`, not
equality). `updateCodebase(filePath, content)` is recorded as a write of
the relative path (the JS joins it with `basePath` before touching disk
and stores the relative path in the `codebase` map). -/
def evGo : List Str → Str → List Str → List FsOp
  | [], cur, buf =>
    if cur = [] then [] else [FsOp.write cur (joinLines buf)]
  | line :: rest, cur, buf =>
    if fileMarker.isPrefixOf line then
      (if cur = [] then [] else [FsOp.write cur (joinLines buf)]) ++
        evGo rest (extractPath line) []
    else if fence.isPrefixOf line then
      if cur = [] then evGo rest cur buf
      else FsOp.write cur (joinLines buf) :: evGo rest [] []
    else if cur ≠ [] then
      evGo rest cur (buf ++ [line])
    else
      evGo rest cur buf

/-- `implementEvolution(evolution)` (UltraAdvancedWebGenerator.js:130-156),
including the trailing flush at lines 153-155. -/
def implementEvolution (evolution : Str) : List FsOp :=
  evGo (splitChar '\n' evolution) [] []

/-- The filesystem file store: a map from path to file content. Folder
creation does not change any file's content; `fs.writeFile` fully
replaces the content at the path (AiBuild.js:1553). -/
def applyOps : List FsOp → (Str → Option Str) → (Str → Option Str)
  | [], st => st
  | FsOp.folder _ :: rest, st => applyOps rest st
  | FsOp.write p c :: rest, st =>
      applyOps rest (fun q => if q = p then some c else st q)

/-- The empty file store. -/
def emptyStore : Str → Option Str := fun _ => none

/-- An I/O fault model: for each operation, `none` means the underlying
`fs` call succeeds, `some e` means it raises an error with message `e`. -/
def FaultModel := FsOp → Option Str

/-- `createFolder(folderPath)` (AiBuild.js:1541-1548): the `fs.mkdir` call
is wrapped in try/catch, so the function never raises; it returns the log
line it prints (success at line 1544, the error log with the offending
path at line 1546). -/
def createFolder (io : FaultModel) (p : Str) : Str :=
  match io (FsOp.folder p) with
  | none => str "Created folder: " ++ p
  | some e => str "Error creating folder " ++ p ++ str ": " ++ e

/-- `writeFile(filePath, content)` (AiBuild.js:1550-1558): mkdir of the
parent plus the write, wrapped in try/catch; never raises; returns the
log line (success at 1554, error with the offending path at 1556). -/
def writeFile (io : FaultModel) (p : Str) (c : Str) : Str :=
  match io (FsOp.write p c) with
  | none => str "Created/Updated file: " ++ p
  | some e => str "Error writing file " ++ p ++ str ": " ++ e

/-- A per-operation handler: `Except.ok log` means the call completed and
logged `log`; `Except.error e` means an exception escaped the call. -/
def Handler := FsOp → Except Str Str

/-- AiBuild.js's materializer: errors are caught inside
`createFolder`/`writeFile`, so the handler never returns an exception. -/
def aiBuildHandler (io : FaultModel) : Handler :=
  fun op =>
    match op with
    | FsOp.folder p => Except.ok (createFolder io p)
    | FsOp.write p c => Except.ok (writeFile io p c)

/-- advanced_self_upgrading_assistant.js's materializer
(lines 283 and 306-310): the `fs.mkdir` / `fs.writeFile` calls have no
try/catch of their own, so an I/O failure escapes as an exception. -/
def advancedHandler (io : FaultModel) : Handler :=
  fun op =>
    match io op with
    | none =>
        match op with
        | FsOp.folder p => Except.ok (str "Created folder: " ++ p)
        | FsOp.write p _ => Except.ok (str "Created/Updated file: " ++ p)
    | some e => Except.error e

/-- Execute the scanner's operations in order with a handler, mirroring
the sequential `await`s of the scan loop: record the operations actually
attempted and the logs, and stop with the exception as soon as a handler
call raises (an uncaught exception aborts the enclosing async function,
abandoning the remaining directives of the response). -/
def runOps (h : Handler) : List FsOp → List FsOp × List Str × Option Str
  | [] => ([], [], none)
  | op :: rest =>
    match h op with
    | Except.ok log =>
        let r := runOps h rest
        (op :: r.1, log :: r.2.1, r.2.2)
    | Except.error e => ([op], [], some e)

/-- A conversation-history role (`"user"` / `"model"`). -/
inductive Role where
  | user
  | model
deriving DecidableEq, Repr

/-- One entry of `this.conversationHistory`:
`{ role, parts: [{ text }] }` (Website.js:93-94). -/
structure HistEntry where
  role : Role
  text : Str
deriving DecidableEq, Repr

/-- `limitConversationHistory(maxMessages = 10)` (Website.js:623-627):
keep only the last `maxMessages` entries when the history is longer
(`slice(-maxMessages)`). -/
def limitConversationHistory (maxMessages : Nat) (h : List HistEntry) :
    List HistEntry :=
  if maxMessages < h.length then h.drop (h.length - maxMessages) else h

/-- The outcome of one remote-call attempt: the accumulated response text,
or a thrown error. -/
inductive CallOutcome where
  | ok (text : Str)
  | err (msg : Str)
deriving DecidableEq, Repr

/-- The observable result of `generateAIResponse`: `result` is `some (ok t)`
for a returned text, `some (err m)` for a thrown error, `none` for the JS
`undefined` fall-through when `retries = 0`; `hist` is the final
`conversationHistory`; `calls` counts remote-call attempts; `trace`
records, for each attempt made, the attempt number and the history state
the attempt started from. -/
structure GenOut where
  result : Option CallOutcome
  hist : List HistEntry
  calls : Nat
  trace : List (Nat × List HistEntry)
deriving DecidableEq, Repr

/-- The terminal error message of Website.js:116. -/
def failMsg (retries : Nat) : Str :=
  str "Failed to generate AI response after " ++ (Nat.repr retries).data ++
    str " attempts"

/-- The retry loop of `generateAIResponse` (Website.js:60-119), one step
per remaining attempt. `attempt` is the 1-based loop counter, `remaining`
the number of attempts still allowed (`retries - attempt + 1`), `h` the
current `conversationHistory`, and `call a` the outcome of the remote
call on attempt `a`. On success (lines 93-100) the prompt and response
are pushed and the history capped; on failure with attempts left
(lines 103-114) the catch block pops up to two entries before retrying;
on the last attempt's failure (line 116) the terminal error is thrown
with the history left as it stands. -/
def genLoop (call : Nat → CallOutcome) (prompt : Str) (retries : Nat) :
    Nat → Nat → List HistEntry → GenOut
  | _, 0, h => ⟨none, h, 0, []⟩
  | a, n + 1, h =>
    match call a with
    | CallOutcome.ok text =>
        ⟨some (CallOutcome.ok text),
         limitConversationHistory 10
           (h ++ [⟨Role.user, prompt⟩, ⟨Role.model, text⟩]),
         1, [(a, h)]⟩
    | CallOutcome.err _ =>
        if n = 0 then
          ⟨some (CallOutcome.err (failMsg retries)), h, 1, [(a, h)]⟩
        else
          let r := genLoop call prompt retries (a + 1) n h.dropLast.dropLast
          ⟨r.result, r.hist, r.calls + 1, (a, h) :: r.trace⟩

/-- `generateAIResponse(prompt, retries = 5)` (Website.js:58-120), run
against a remote-call behaviour `call` and a starting history `h`. -/
def generateAIResponse (call : Nat → CallOutcome) (prompt : Str)
    (retries : Nat) (h : List HistEntry) : GenOut :=
  genLoop call prompt retries 1 retries h

/-- The observable result of `exponentialBackoff`. -/
structure RetryOut where
  result : Option CallOutcome
  calls : Nat
deriving DecidableEq, Repr

/-- The loop of `exponentialBackoff(func, maxRetries = 5)`
(advanced_self_upgrading_assistant.js:425-436): `i` is the 0-based loop
counter, `call i` the outcome of the `(i+1)`-th invocation of `func`;
success returns immediately, the last failure rethrows the underlying
error, and `maxRetries = 0` falls through to JS `undefined` (`none`). -/
def backoffLoop (call : Nat → CallOutcome) : Nat → Nat → RetryOut
  | _, 0 => ⟨none, 0⟩
  | i, n + 1 =>
    match call i with
    | CallOutcome.ok t => ⟨some (CallOutcome.ok t), 1⟩
    | CallOutcome.err e =>
        if n = 0 then ⟨some (CallOutcome.err e), 1⟩
        else
          let r := backoffLoop call (i + 1) n
          ⟨r.result, r.calls + 1⟩

/-- `exponentialBackoff(func, maxRetries)`
(advanced_self_upgrading_assistant.js:425-436). -/
def exponentialBackoff (call : Nat → CallOutcome) (maxRetries : Nat) :
    RetryOut :=
  backoffLoop call 0 maxRetries

/-! ### Scanner state and per-line operation decomposition -/

/-- The `(currentFilePath, currentFileContent)` state left by the
`processFileCreation` loop after consuming the given lines, starting
from the given state (same branch structure as `scanGo`). -/
def scanState : List Str → Str → List Str → Str × List Str
  | [], cur, buf => (cur, buf)
  | line :: rest, cur, buf =>
    if folderMarker.isPrefixOf line then
      scanState rest cur buf
    else if fileMarker.isPrefixOf line then
      scanState rest (extractPath line) []
    else if line = fence ∧ cur ≠ [] then
      scanState rest [] []
    else if cur ≠ [] then
      scanState rest cur (buf ++ [line])
    else
      scanState rest cur buf

/-- The operations the `processFileCreation` loop emits while consuming
the given lines, WITHOUT the trailing unterminated-block flush. -/
def lineOps : List Str → Str → List Str → List FsOp
  | [], _, _ => []
  | line :: rest, cur, buf =>
    if folderMarker.isPrefixOf line then
      FsOp.folder (extractPath line) :: lineOps rest cur buf
    else if fileMarker.isPrefixOf line then
      (if cur = [] then [] else [FsOp.write cur (joinLines buf)]) ++
        lineOps rest (extractPath line) []
    else if line = fence ∧ cur ≠ [] then
      FsOp.write cur (joinLines buf) :: lineOps rest [] []
    else if cur ≠ [] then
      lineOps rest cur (buf ++ [line])
    else
      lineOps rest cur buf

/-- The trailing flush of `processFileCreation` (AiBuild.js:1536-1538)
applied to a scanner state. -/
def finalFlush (st : Str × List Str) : List FsOp :=
  if st.1 = [] then [] else [FsOp.write st.1 (joinLines st.2)]

/-- The log line AiBuild.js's materializer produces for an operation. -/
def aiBuildLog (io : FaultModel) (op : FsOp) : Str :=
  match op with
  | FsOp.folder p => createFolder io p
  | FsOp.write p c => writeFile io p c

/-- A fault model that fails exactly on the folder `a`. -/
def failOnFolderA : FaultModel :=
  fun op => if op = FsOp.folder (str "a") then some (str "EACCES") else none

/-! ### The well-formed directive grammar (spec section 6) -/

/-- One block of a well-formed response: a single-line folder directive,
a file directive (open line, content lines, bare close fence), or a line
of surrounding prose. -/
inductive Item where
  | folderD (p : Str)
  | fileD (p : Str) (content : List Str)
  | prose (l : Str)

/-- The lines a block occupies in the response text. -/
def renderItem : Item → List Str
  | Item.folderD p => [folderMarker ++ p]
  | Item.fileD p c => (fileMarker ++ p) :: c ++ [fence]
  | Item.prose l => [l]

/-- The lines of a whole response made of the given blocks. -/
def renderLines (items : List Item) : List Str :=
  (items.map renderItem).flatten

/-- The materializer operations a block calls for. -/
def itemOps : Item → List FsOp
  | Item.folderD p => [FsOp.folder p]
  | Item.fileD p c => [FsOp.write p (joinLines c)]
  | Item.prose _ => []

/-- The operations of a whole response, in textual order. -/
def opsOf (items : List Item) : List FsOp :=
  (items.map itemOps).flatten

/-- A directive path as the grammar intends it: nonempty, already
trimmed, containing neither a colon nor a newline. -/
def goodPath (p : Str) : Prop :=
  p ≠ [] ∧ trimChars p = p ∧ ∀ c ∈ p, c ≠ ':' ∧ c ≠ '\n'

instance (p : Str) : Decidable (goodPath p) := by
  unfold goodPath; infer_instance

/-- A legal file-content line: not a marker line, not the bare close
fence, no embedded newline. -/
def contentLineOk (l : Str) : Prop :=
  folderMarker.isPrefixOf l = false ∧ fileMarker.isPrefixOf l = false ∧
    l ≠ fence ∧ '\n' ∉ l

instance (l : Str) : Decidable (contentLineOk l) := by
  unfold contentLineOk; infer_instance

/-- A legal prose line: not a marker line, no embedded newline (the bare
fence is allowed outside a block — the scanner ignores it there). -/
def proseOk (l : Str) : Prop :=
  folderMarker.isPrefixOf l = false ∧ fileMarker.isPrefixOf l = false ∧
    '\n' ∉ l

instance (l : Str) : Decidable (proseOk l) := by
  unfold proseOk; infer_instance

/-- Well-formedness of one block. -/
def validItem : Item → Prop
  | Item.folderD p => goodPath p
  | Item.fileD p c => goodPath p ∧ ∀ l ∈ c, contentLineOk l
  | Item.prose l => proseOk l

instance (it : Item) : Decidable (validItem it) := by
  cases it <;> (unfold validItem; infer_instance)

/-! ### Concrete behaviour checks of the embedded scanner -/

example : processFileCreation (str "```file:a/b.txt\nHELLO\nWORLD\n```") =
    [FsOp.write (str "a/b.txt") (str "HELLO\nWORLD")] := by decide

example : processFileCreation (str "```file:x.txt\nONLY LINE") =
    [FsOp.write (str "x.txt") (str "ONLY LINE")] := by decide

example : processFileCreation (str "```folder:a:b") =
    [FsOp.folder (str "a")] := by decide

example : processFileCreation (str "```folder:") = [FsOp.folder []] := by decide

example : processFileCreation (str "```file:") = [] := by decide

/-! ### Helper lemmas about the embedded JS string primitives -/

theorem folderMarker_prefix_self (p : Str) :
    folderMarker.isPrefixOf (folderMarker ++ p) = true := by
  simp [List.isPrefixOf_iff_prefix]

theorem fileMarker_prefix_self (p : Str) :
    fileMarker.isPrefixOf (fileMarker ++ p) = true := by
  simp [List.isPrefixOf_iff_prefix]

theorem folderMarker_not_prefix_file (p : Str) :
    folderMarker.isPrefixOf (fileMarker ++ p) = false := rfl

theorem splitChar_append_sep (sep : Char) (l r : Str)
    (h : ∀ c ∈ l, c ≠ sep) :
    splitChar sep (l ++ sep :: r) = l :: splitChar sep r := by
  induction l with
  | nil => simp [splitChar]
  | cons c cs ih =>
    have hc : c ≠ sep := h c (by simp)
    have ih' := ih (fun x hx => h x (by simp [hx]))
    simp [splitChar, hc, ih']

theorem splitChar_no_sep (sep : Char) (l : Str) (h : ∀ c ∈ l, c ≠ sep) :
    splitChar sep l = [l] := by
  induction l with
  | nil => simp [splitChar]
  | cons c cs ih =>
    have hc : c ≠ sep := h c (by simp)
    have ih' := ih (fun x hx => h x (by simp [hx]))
    simp [splitChar, hc, ih']

theorem splitChar_joinLines (ls : List Str) (hne : ls ≠ [])
    (h : ∀ l ∈ ls, ∀ c ∈ l, c ≠ '\n') :
    splitChar '\n' (joinLines ls) = ls := by
  induction ls with
  | nil => exact absurd rfl hne
  | cons l ls ih =>
    cases ls with
    | nil =>
      simpa [joinLines] using splitChar_no_sep '\n' l (h l (by simp))
    | cons l' ls' =>
      have h1 : joinLines (l :: l' :: ls') = l ++ '\n' :: joinLines (l' :: ls') := rfl
      rw [h1, splitChar_append_sep '\n' l _ (h l (by simp)),
        ih (by simp) (fun x hx => h x (by simp [hx]))]

theorem extractPath_folderMarker (p : Str) (hp : ∀ c ∈ p, c ≠ ':') :
    extractPath (folderMarker ++ p) = trimChars p := by
  have h1 : folderMarker ++ p = (str "```folder") ++ ':' :: p := rfl
  rw [extractPath, h1,
    splitChar_append_sep ':' (str "```folder") p (by decide),
    splitChar_no_sep ':' p hp]
  rfl

theorem extractPath_fileMarker (p : Str) (hp : ∀ c ∈ p, c ≠ ':') :
    extractPath (fileMarker ++ p) = trimChars p := by
  have h1 : fileMarker ++ p = (str "```file") ++ ':' :: p := rfl
  rw [extractPath, h1,
    splitChar_append_sep ':' (str "```file") p (by decide),
    splitChar_no_sep ':' p hp]
  rfl

/-- `scanGo` = per-line operations followed by exactly the trailing
flush of the final state. -/
theorem scanGo_decompose :
    ∀ (ls : List Str) (cur : Str) (buf : List Str),
      scanGo ls cur buf =
        lineOps ls cur buf ++ finalFlush (scanState ls cur buf) := by
  intro ls
  induction ls with
  | nil => intro cur buf; simp [scanGo, lineOps, scanState, finalFlush]
  | cons line rest ih =>
    intro cur buf
    simp only [scanGo, lineOps, scanState]
    split_ifs <;> simp [ih, List.append_assoc]

/-- Inside an open block, a run of lines that are neither markers nor the
bare fence is buffered verbatim, in order. -/
theorem scanGo_content (c : List Str)
    (hc : ∀ l ∈ c, folderMarker.isPrefixOf l = false ∧
      fileMarker.isPrefixOf l = false ∧ l ≠ fence) :
    ∀ (rest : List Str) (cur : Str) (buf : List Str), cur ≠ [] →
      scanGo (c ++ rest) cur buf = scanGo rest cur (buf ++ c) := by
  induction c with
  | nil => intro rest cur buf _; simp
  | cons l c ih =>
    intro rest cur buf hcur
    obtain ⟨h1, h2, h3⟩ := hc l (by simp)
    have ih' := ih (fun x hx => hc x (by simp [hx])) rest cur (buf ++ [l]) hcur
    simp only [List.cons_append, scanGo, h1, h2, h3, hcur]
    simpa [hcur, List.append_assoc] using ih'

/-- Every write the scanner emits carries a nonempty path: each flush is
guarded by the truthiness of `currentFilePath`. -/
theorem scanGo_write_path_ne_nil :
    ∀ (ls : List Str) (cur : Str) (buf : List Str) (p c : Str),
      FsOp.write p c ∈ scanGo ls cur buf → p ≠ [] := by
  intro ls
  induction ls with
  | nil =>
    intro cur buf p c h
    simp only [scanGo] at h
    split at h
    · simp at h
    · next hcur =>
      simp at h
      rw [h.1]; exact hcur
  | cons line rest ih =>
    intro cur buf p c h
    simp only [scanGo] at h
    split at h
    · rcases List.mem_cons.mp h with h' | h'
      · cases h'
      · exact ih _ _ _ _ h'
    · split at h
      · rcases List.mem_append.mp h with h' | h'
        · split at h'
          · simp at h'
          · next hcur =>
            simp at h'
            rw [h'.1]; exact hcur
        · exact ih _ _ _ _ h'
      · split at h
        · next h3 =>
          rcases List.mem_cons.mp h with h' | h'
          · cases h'; exact h3.2
          · exact ih _ _ _ _ h'
        · split at h
          · exact ih _ _ _ _ h
          · exact ih _ _ _ _ h

/-! ### File-store and materializer-run lemmas -/

theorem applyOps_append (l₁ l₂ : List FsOp) (st : Str → Option Str) :
    applyOps (l₁ ++ l₂) st = applyOps l₂ (applyOps l₁ st) := by
  induction l₁ generalizing st with
  | nil => rfl
  | cons op rest ih =>
    cases op with
    | folder p => simp [applyOps, ih]
    | write p c => simp [applyOps, ih]

theorem applyOps_no_write (ops : List FsOp) (p : Str)
    (h : ∀ c, FsOp.write p c ∉ ops) (st : Str → Option Str) :
    applyOps ops st p = st p := by
  induction ops generalizing st with
  | nil => rfl
  | cons op rest ih =>
    have h' : ∀ c, FsOp.write p c ∉ rest := fun c hc => h c (by simp [hc])
    cases op with
    | folder q => simpa [applyOps] using ih h' st
    | write q c =>
      have hpq : p ≠ q := fun he => h c (by simp [he])
      simp [applyOps]
      rw [ih h']
      simp [hpq]

/-- Last write to a path wins: if a write of `c₂` to `p` is followed only
by operations that do not write to `p`, the final content at `p` is `c₂`. -/
theorem applyOps_last_write (ops₁ ops₂ : List FsOp) (p c₂ : Str)
    (h : ∀ c, FsOp.write p c ∉ ops₂) (st : Str → Option Str) :
    applyOps (ops₁ ++ FsOp.write p c₂ :: ops₂) st p = some c₂ := by
  rw [applyOps_append]
  simp only [applyOps]
  rw [applyOps_no_write ops₂ p h]
  simp

/-- Running the scan's operations through AiBuild.js's try/catch
materializer attempts every operation, produces one log line per
operation, and never lets an exception escape, whatever the fault model
does. -/
theorem runOps_aiBuild (io : FaultModel) (ops : List FsOp) :
    runOps (aiBuildHandler io) ops = (ops, ops.map (aiBuildLog io), none) := by
  induction ops with
  | nil => rfl
  | cons op rest ih =>
    cases op with
    | folder p => simp [runOps, aiBuildHandler, aiBuildLog, ih]
    | write p c => simp [runOps, aiBuildHandler, aiBuildLog, ih]

/-- The path is embedded in the `createFolder` log line, success or
failure (AiBuild.js:1544,1546). -/
theorem createFolder_log_has_path (io : FaultModel) (p : Str) :
    p <:+: createFolder io p := by
  unfold createFolder
  cases io (FsOp.folder p) with
  | none => exact ⟨str "Created folder: ", [], by simp⟩
  | some e => exact ⟨str "Error creating folder ", str ": " ++ e, by simp⟩

/-- The path is embedded in the `writeFile` log line, success or failure
(AiBuild.js:1554,1556). -/
theorem writeFile_log_has_path (io : FaultModel) (p c : Str) :
    p <:+: writeFile io p c := by
  unfold writeFile
  cases io (FsOp.write p c) with
  | none => exact ⟨str "Created/Updated file: ", [], by simp⟩
  | some e => exact ⟨str "Error writing file ", str ": " ++ e, by simp⟩

/-! ### Retry-loop lemmas -/

theorem backoffLoop_all_fail (call : Nat → CallOutcome) :
    ∀ (n i : Nat), 1 ≤ n →
      (∀ j, j < n → ∃ e, call (i + j) = CallOutcome.err e) →
      (backoffLoop call i n).calls = n ∧
        ∃ e, call (i + (n - 1)) = CallOutcome.err e ∧
          (backoffLoop call i n).result = some (CallOutcome.err e) := by
  intro n
  induction n with
  | zero => omega
  | succ m ih =>
    intro i _ hf
    obtain ⟨e, he⟩ := hf 0 (by omega)
    rw [Nat.add_zero] at he
    by_cases hm : m = 0
    · subst hm
      simp [backoffLoop, he]
    · have ih' := ih (i + 1) (by omega) (fun j hj => by
        have h := hf (j + 1) (by omega)
        rwa [show i + (j + 1) = i + 1 + j by omega] at h)
      simp only [backoffLoop, he, hm, if_false]
      refine ⟨by simpa using ih'.1, ?_⟩
      obtain ⟨e', he', hr⟩ := ih'.2
      exact ⟨e', by rwa [show i + (m + 1 - 1) = i + 1 + (m - 1) by omega], hr⟩

theorem backoffLoop_succeeds (call : Nat → CallOutcome) (t : Str) :
    ∀ (k n i : Nat), k < n →
      (∀ j, j < k → ∃ e, call (i + j) = CallOutcome.err e) →
      call (i + k) = CallOutcome.ok t →
      backoffLoop call i n = ⟨some (CallOutcome.ok t), k + 1⟩ := by
  intro k
  induction k with
  | zero =>
    intro n i hkn hf hok
    obtain ⟨m, rfl⟩ : ∃ m, n = m + 1 := ⟨n - 1, by omega⟩
    rw [Nat.add_zero] at hok
    simp [backoffLoop, hok]
  | succ k ih =>
    intro n i hkn hf hok
    obtain ⟨m, rfl⟩ : ∃ m, n = m + 1 := ⟨n - 1, by omega⟩
    obtain ⟨e, he⟩ := hf 0 (by omega)
    rw [Nat.add_zero] at he
    have hm : m ≠ 0 := by omega
    have ih' := ih m (i + 1) (by omega)
      (fun j hj => by
        have h := hf (j + 1) (by omega)
        rwa [show i + (j + 1) = i + 1 + j by omega] at h)
      (by rwa [show i + 1 + k = i + (k + 1) by omega])
    simp [backoffLoop, he, hm, ih']

theorem genLoop_all_fail (call : Nat → CallOutcome) (p : Str)
    (retries : Nat) :
    ∀ (n a : Nat) (h : List HistEntry), 1 ≤ n →
      (∀ j, j < n → ∃ e, call (a + j) = CallOutcome.err e) →
      (genLoop call p retries a n h).calls = n ∧
        (genLoop call p retries a n h).result =
          some (CallOutcome.err (failMsg retries)) := by
  intro n
  induction n with
  | zero => omega
  | succ m ih =>
    intro a h _ hf
    obtain ⟨e, he⟩ := hf 0 (by omega)
    rw [Nat.add_zero] at he
    by_cases hm : m = 0
    · subst hm
      simp [genLoop, he]
    · have ih' := ih (a + 1) h.dropLast.dropLast (by omega) (fun j hj => by
        have hh := hf (j + 1) (by omega)
        rwa [show a + (j + 1) = a + 1 + j by omega] at hh)
      simp only [genLoop, he, hm, if_false]
      exact ⟨by simpa using ih'.1, ih'.2⟩

theorem genLoop_succeeds (call : Nat → CallOutcome) (p t : Str)
    (retries : Nat) :
    ∀ (k n a : Nat) (h : List HistEntry), k < n →
      (∀ j, j < k → ∃ e, call (a + j) = CallOutcome.err e) →
      call (a + k) = CallOutcome.ok t →
      (genLoop call p retries a n h).calls = k + 1 ∧
        (genLoop call p retries a n h).result =
          some (CallOutcome.ok t) := by
  intro k
  induction k with
  | zero =>
    intro n a h hkn hf hok
    obtain ⟨m, rfl⟩ : ∃ m, n = m + 1 := ⟨n - 1, by omega⟩
    rw [Nat.add_zero] at hok
    simp [genLoop, hok]
  | succ k ih =>
    intro n a h hkn hf hok
    obtain ⟨m, rfl⟩ : ∃ m, n = m + 1 := ⟨n - 1, by omega⟩
    obtain ⟨e, he⟩ := hf 0 (by omega)
    rw [Nat.add_zero] at he
    have hm : m ≠ 0 := by omega
    have ih' := ih m (a + 1) h.dropLast.dropLast (by omega)
      (fun j hj => by
        have hh := hf (j + 1) (by omega)
        rwa [show a + (j + 1) = a + 1 + j by omega] at hh)
      (by rwa [show a + 1 + k = a + (k + 1) by omega])
    simp only [genLoop, he, hm, if_false]
    exact ⟨by simpa using ih'.1, ih'.2⟩

/-! ### Conversation-history lemmas -/

theorem limitConversationHistory_eq_drop (l : List HistEntry) :
    limitConversationHistory 10 l = l.drop (l.length - 10) := by
  unfold limitConversationHistory
  by_cases h : 10 < l.length
  · simp [h]
  · simp [h, Nat.sub_eq_zero_of_le (Nat.le_of_not_lt h)]

theorem generateAIResponse_first_success (call : Nat → CallOutcome)
    (p t : Str) (retries : Nat) (h : List HistEntry) (hr : 1 ≤ retries)
    (hc : call 1 = CallOutcome.ok t) :
    generateAIResponse call p retries h =
      ⟨some (CallOutcome.ok t),
       limitConversationHistory 10
         (h ++ [⟨Role.user, p⟩, ⟨Role.model, t⟩]),
       1, [(1, h)]⟩ := by
  obtain ⟨n, rfl⟩ : ∃ n, retries = n + 1 := ⟨retries - 1, by omega⟩
  simp [generateAIResponse, genLoop, hc]

theorem renderItem_no_newline (it : Item) (hv : validItem it) :
    ∀ l ∈ renderItem it, ∀ c ∈ l, c ≠ '\n' := by
  cases it with
  | folderD p =>
    intro l hl c hc
    simp [renderItem] at hl
    subst hl
    rcases List.mem_append.mp hc with h | h
    · exact (by decide : ∀ x ∈ folderMarker, x ≠ '\n') c h
    · exact (hv.2.2 c h).2
  | fileD p cont =>
    intro l hl c hc
    simp [renderItem] at hl
    rcases hl with hl | hl | hl
    · subst hl
      rcases List.mem_append.mp hc with h | h
      · exact (by decide : ∀ x ∈ fileMarker, x ≠ '\n') c h
      · exact (hv.1.2.2 c h).2
    · have hn := (hv.2 l hl).2.2.2
      exact fun he => hn (he ▸ hc)
    · subst hl
      exact (by decide : ∀ x ∈ fence, x ≠ '\n') c hc
  | prose l' =>
    intro l hl c hc
    simp [renderItem] at hl
    subst hl
    exact fun he => hv.2.2 (he ▸ hc)

/-- Scanning the lines of one well-formed block from the idle state emits
exactly that block's operations and returns to the idle state. -/
theorem scanGo_item (it : Item) (hv : validItem it) (rest : List Str) :
    scanGo (renderItem it ++ rest) [] [] =
      itemOps it ++ scanGo rest [] [] := by
  cases it with
  | folderD p =>
    obtain ⟨hne, htrim, hchar⟩ := hv
    have hpre := folderMarker_prefix_self p
    have hext : extractPath (folderMarker ++ p) = p := by
      rw [extractPath_folderMarker p (fun c hc => (hchar c hc).1), htrim]
    simp [renderItem, scanGo, hpre, hext, itemOps]
  | fileD p cont =>
    obtain ⟨⟨hne, htrim, hchar⟩, hcont⟩ := hv
    have hnofo := folderMarker_not_prefix_file p
    have hfi := fileMarker_prefix_self p
    have hext : extractPath (fileMarker ++ p) = p := by
      rw [extractPath_fileMarker p (fun c hc => (hchar c hc).1), htrim]
    have hrun := scanGo_content cont
      (fun l hl => ⟨(hcont l hl).1, (hcont l hl).2.1, (hcont l hl).2.2.1⟩)
      (fence :: rest) p [] hne
    have hlines : renderItem (Item.fileD p cont) ++ rest =
        (fileMarker ++ p) :: (cont ++ fence :: rest) := by
      simp [renderItem, List.append_assoc]
    rw [hlines]
    have hopen : scanGo ((fileMarker ++ p) :: (cont ++ fence :: rest)) [] [] =
        scanGo (cont ++ fence :: rest) p [] := by
      simp [scanGo, hnofo, hfi, hext]
    rw [hopen, hrun]
    have h1 : folderMarker.isPrefixOf fence = false := by decide
    have h2 : fileMarker.isPrefixOf fence = false := by decide
    simp [scanGo, h1, h2, hne, itemOps]
  | prose l =>
    obtain ⟨h1, h2, _⟩ := hv
    simp [renderItem, scanGo, h1, h2, itemOps]

/-- Scanning a well-formed sequence of blocks emits exactly the
concatenation of the blocks' operations, in textual order. -/
theorem scanGo_renderLines (items : List Item)
    (hv : ∀ it ∈ items, validItem it) (rest : List Str) :
    scanGo (renderLines items ++ rest) [] [] =
      opsOf items ++ scanGo rest [] [] := by
  induction items with
  | nil => simp [renderLines, opsOf]
  | cons it its ih =>
    have h1 : renderLines (it :: its) = renderItem it ++ renderLines its := by
      simp [renderLines]
    have h2 : opsOf (it :: its) = itemOps it ++ opsOf its := by
      simp [opsOf]
    rw [h1, h2, List.append_assoc,
      scanGo_item it (hv it (by simp)) (renderLines its ++ rest),
      ih (fun x hx => hv x (by simp [hx])), List.append_assoc]

/-- The whole pipeline on a well-formed response string: split, scan,
emit exactly the directives' operations in textual order. -/
theorem processFileCreation_renderLines (items : List Item)
    (hne : items ≠ []) (hv : ∀ it ∈ items, validItem it) :
    processFileCreation (joinLines (renderLines items)) = opsOf items := by
  have hnn : ∀ l ∈ renderLines items, ∀ c ∈ l, c ≠ '\n' := by
    intro l hl
    rw [renderLines, List.mem_flatten] at hl
    obtain ⟨s, hs, hls⟩ := hl
    rw [List.mem_map] at hs
    obtain ⟨it, hit, rfl⟩ := hs
    exact renderItem_no_newline it (hv it hit) l hls
  have hrne : renderLines items ≠ [] := by
    cases items with
    | nil => exact absurd rfl hne
    | cons it its => cases it <;> simp [renderLines, renderItem]
  rw [processFileCreation, splitChar_joinLines _ hrne hnn]
  simpa [scanGo] using scanGo_renderLines items hv []

/-! ### Claim theorems -/

/-- Claim C1 (refuted — code bug). The claim: whenever a remote-call
attempt fails and another attempt remains, the failed attempt's
speculative history entries are removed before the retry, so the retried
attempt observes exactly the history state the failed attempt started
from. On the code this is false: `generateAIResponse` pushes to
`conversationHistory` only after a fully successful attempt
(Website.js:93-94), so a failed attempt appends nothing — yet the catch
block still pops two entries (Website.js:105-110). Starting from history
`[user u0, model m0]` with attempt 1 failing, attempt 2 observes the
empty history instead of `[user u0, model m0]`. -/
theorem c1_rollback_pops_prior_turns :
    (generateAIResponse
        (fun a => if a = 1 then CallOutcome.err (str "network error")
          else CallOutcome.ok (str "t"))
        (str "p") 5
        [⟨Role.user, str "u0"⟩, ⟨Role.model, str "m0"⟩]).trace =
      [(1, [⟨Role.user, str "u0"⟩, ⟨Role.model, str "m0"⟩]), (2, [])] ∧
    ([] : List HistEntry) ≠
      [⟨Role.user, str "u0"⟩, ⟨Role.model, str "m0"⟩] := by
  decide

/-- Claim C2 (confirmed). If the input ends while a file block is still
open (the final scanner state has a nonempty `currentFilePath`), the
emitted operations are exactly the per-line operations followed by ONE
trailing write of the open path with the newline-joined buffer; and the
concrete unterminated input from the spec materializes `x.txt` with
content `ONLY LINE`. -/
theorem c2_unterminated_block_flushed_once (response : Str)
    (hopen : (scanState (splitChar '\n' response) [] []).1 ≠ []) :
    processFileCreation response =
      lineOps (splitChar '\n' response) [] [] ++
        [FsOp.write (scanState (splitChar '\n' response) [] []).1
          (joinLines (scanState (splitChar '\n' response) [] []).2)] ∧
    processFileCreation (str "```file:x.txt\nONLY LINE") =
      [FsOp.write (str "x.txt") (str "ONLY LINE")] := by
  constructor
  · rw [processFileCreation, scanGo_decompose]
    simp [finalFlush, hopen]
  · decide

theorem c2_unterminated_block_flushed_once_witness :
    ((scanState (splitChar '\n' (str "```file:x.txt\nONLY LINE")) [] []).1 ≠ []) ∧
    processFileCreation (str "```file:x.txt\nONLY LINE") =
      lineOps (splitChar '\n' (str "```file:x.txt\nONLY LINE")) [] [] ++
        [FsOp.write
          (scanState (splitChar '\n' (str "```file:x.txt\nONLY LINE")) [] []).1
          (joinLines
            (scanState (splitChar '\n' (str "```file:x.txt\nONLY LINE")) [] []).2)] :=
  ⟨by decide,
    (c2_unterminated_block_flushed_once (str "```file:x.txt\nONLY LINE")
      (by decide)).1⟩

/-- Claim C3 (confirmed). For `maxAttempts ≥ 1`, both retry wrappers —
`exponentialBackoff` (0-based attempts) and `generateAIResponse`
(1-based attempts) — invoke the remote call exactly `maxAttempts` times
and yield a terminal failure when every attempt fails, and return the
successful response after exactly `k+1` invocations when the first `k`
attempts fail and attempt `k+1` succeeds. -/
theorem c3_retry_attempt_counts (m k : Nat) (call callG : Nat → CallOutcome)
    (p t : Str) (h : List HistEntry) (hm : 1 ≤ m) :
    ((∀ j, j < m → ∃ e, call j = CallOutcome.err e) →
      (exponentialBackoff call m).calls = m ∧
        ∃ e, (exponentialBackoff call m).result = some (CallOutcome.err e)) ∧
    (k < m → (∀ j, j < k → ∃ e, call j = CallOutcome.err e) →
      call k = CallOutcome.ok t →
      exponentialBackoff call m = ⟨some (CallOutcome.ok t), k + 1⟩) ∧
    ((∀ a, 1 ≤ a → a ≤ m → ∃ e, callG a = CallOutcome.err e) →
      (generateAIResponse callG p m h).calls = m ∧
        (generateAIResponse callG p m h).result =
          some (CallOutcome.err (failMsg m))) ∧
    (k < m → (∀ a, 1 ≤ a → a ≤ k → ∃ e, callG a = CallOutcome.err e) →
      callG (k + 1) = CallOutcome.ok t →
      (generateAIResponse callG p m h).calls = k + 1 ∧
        (generateAIResponse callG p m h).result =
          some (CallOutcome.ok t)) := by
  refine ⟨?_, ?_, ?_, ?_⟩
  · intro hf
    have hb := backoffLoop_all_fail call m 0 hm
      (fun j hj => by simpa using hf j hj)
    exact ⟨hb.1, hb.2.choose, hb.2.choose_spec.2⟩
  · intro hk hf hok
    exact backoffLoop_succeeds call t k m 0 hk
      (fun j hj => by simpa using hf j hj) (by simpa using hok)
  · intro hf
    have hg := genLoop_all_fail callG p m m 1 h hm
      (fun j hj => hf (1 + j) (by omega) (by omega))
    exact hg
  · intro hk hf hok
    have hg := genLoop_succeeds callG p t m k m 1 h hk
      (fun j hj => hf (1 + j) (by omega) (by omega))
      (by rwa [show 1 + k = k + 1 by omega])
    exact hg

theorem c3_retry_attempt_counts_witness :
    ((exponentialBackoff (fun _ => CallOutcome.err (str "boom")) 3).calls = 3 ∧
      ∃ e, (exponentialBackoff (fun _ => CallOutcome.err (str "boom")) 3).result =
        some (CallOutcome.err e)) ∧
    exponentialBackoff
        (fun i => if i = 0 then CallOutcome.err (str "boom")
          else CallOutcome.ok (str "ok")) 3 =
      ⟨some (CallOutcome.ok (str "ok")), 2⟩ ∧
    (generateAIResponse (fun _ => CallOutcome.err (str "boom"))
        (str "p") 3 []).calls = 3 ∧
    (generateAIResponse
        (fun a => if a = 1 then CallOutcome.err (str "boom")
          else CallOutcome.ok (str "ok"))
        (str "p") 3 []).calls = 2 := by
  refine ⟨?_, ?_, ?_, ?_⟩
  · exact (c3_retry_attempt_counts 3 0 (fun _ => CallOutcome.err (str "boom"))
      (fun _ => CallOutcome.err (str "boom")) (str "p") (str "ok") []
      (by decide)).1 (fun j _ => ⟨str "boom", rfl⟩)
  · exact (c3_retry_attempt_counts 3 1
      (fun i => if i = 0 then CallOutcome.err (str "boom")
        else CallOutcome.ok (str "ok"))
      (fun _ => CallOutcome.err (str "boom")) (str "p") (str "ok") []
      (by decide)).2.1 (by decide)
      (fun j hj => ⟨str "boom", by interval_cases j; rfl⟩) (by decide)
  · exact ((c3_retry_attempt_counts 3 0
      (fun _ => CallOutcome.err (str "boom"))
      (fun _ => CallOutcome.err (str "boom")) (str "p") (str "ok") []
      (by decide)).2.2.1 (fun a _ _ => ⟨str "boom", rfl⟩)).1
  · exact ((c3_retry_attempt_counts 3 1
      (fun _ => CallOutcome.err (str "boom"))
      (fun a => if a = 1 then CallOutcome.err (str "boom")
        else CallOutcome.ok (str "ok"))
      (str "p") (str "ok") [] (by decide)).2.2.2 (by decide)
      (fun a h1 h2 => ⟨str "boom", by interval_cases a; rfl⟩)
      (by decide)).1

/-- Claim C4 (confirmed). Scanning a well-formed response consisting of
the given folder directives, file directives and prose emits exactly the
directives' operations — one folder op per folder directive, one write
per file directive, in textual order, never reordered; and on the file
store a later write to a path (followed by no further write to it)
determines the path's final content. -/
theorem c4_operations_in_textual_order (items : List Item)
    (ops₁ ops₂ : List FsOp) (p c₂ : Str) (st : Str → Option Str)
    (hne : items ≠ []) (hv : ∀ it ∈ items, validItem it)
    (hnw : ∀ c, FsOp.write p c ∉ ops₂) :
    processFileCreation (joinLines (renderLines items)) = opsOf items ∧
    applyOps (ops₁ ++ FsOp.write p c₂ :: ops₂) st p = some c₂ :=
  ⟨processFileCreation_renderLines items hne hv,
    applyOps_last_write ops₁ ops₂ p c₂ hnw st⟩

theorem c4_operations_in_textual_order_witness :
    processFileCreation
        (joinLines (renderLines
          [Item.folderD (str "d"), Item.fileD (str "f") [str "X"],
           Item.prose (str "hello"), Item.fileD (str "f") [str "Y"]])) =
      opsOf
        [Item.folderD (str "d"), Item.fileD (str "f") [str "X"],
         Item.prose (str "hello"), Item.fileD (str "f") [str "Y"]] ∧
    applyOps
        ([FsOp.folder (str "d"), FsOp.write (str "f") (str "X")] ++
          FsOp.write (str "f") (str "Y") :: [])
        emptyStore (str "f") = some (str "Y") :=
  c4_operations_in_textual_order
    [Item.folderD (str "d"), Item.fileD (str "f") [str "X"],
     Item.prose (str "hello"), Item.fileD (str "f") [str "Y"]]
    [FsOp.folder (str "d"), FsOp.write (str "f") (str "X")] []
    (str "f") (str "Y") emptyStore (by simp) (by decide)
    (fun c hc => by simp at hc)

/-- Claim C5 (confirmed). Scanning the synthetic response
`'```file:a/b.txt\nHELLO\nWORLD\n```'` emits exactly one write, and
reading `a/b.txt` back from the resulting file store yields
`"HELLO\nWORLD"`. -/
theorem c5_round_trip :
    processFileCreation (str "```file:a/b.txt\nHELLO\nWORLD\n```") =
      [FsOp.write (str "a/b.txt") (str "HELLO\nWORLD")] ∧
    applyOps (processFileCreation (str "```file:a/b.txt\nHELLO\nWORLD\n```"))
        emptyStore (str "a/b.txt") = some (str "HELLO\nWORLD") := by
  decide

/-- Claim C6 as stated is false: for the marker line `'```folder:a:b'`
the after-prefix text is `a:b` (already trimmed), but the path handed to
the folder operation is `a` — `split(':')[1]` truncates at the second
colon; and the pathless marker line `'```folder:'` hands the EMPTY path
to the folder operation. -/
theorem c6_counterexample :
    processFileCreation (str "```folder:a:b") = [FsOp.folder (str "a")] ∧
    trimChars (str "a:b") = str "a:b" ∧
    str "a" ≠ str "a:b" ∧
    processFileCreation (str "```folder:") = [FsOp.folder []] := by
  decide

/-- Claim C6 (amended). For marker lines whose path part contains no
colon, the extracted path equals the after-prefix text trimmed — for
folder directives it is handed to the folder operation as-is (possibly
empty), and for file directives it becomes the open path; every write
operation the scanner ever emits carries a nonempty path. -/
theorem c6_path_extraction (p : Str) (rest : List Str) (cur : Str)
    (buf : List Str) (hp : ∀ c ∈ p, c ≠ ':') :
    scanGo ((folderMarker ++ p) :: rest) cur buf =
      FsOp.folder (trimChars p) :: scanGo rest cur buf ∧
    scanGo ((fileMarker ++ p) :: rest) [] buf =
      scanGo rest (trimChars p) [] ∧
    (∀ (ls : List Str) (cur' : Str) (buf' : List Str) (q c : Str),
      FsOp.write q c ∈ scanGo ls cur' buf' → q ≠ []) := by
  refine ⟨?_, ?_, scanGo_write_path_ne_nil⟩
  · simp [scanGo, folderMarker_prefix_self, extractPath_folderMarker p hp]
  · simp [scanGo, folderMarker_not_prefix_file, fileMarker_prefix_self,
      extractPath_fileMarker p hp]

theorem c6_path_extraction_witness :
    scanGo ((folderMarker ++ str "pics") :: []) [] [] =
      FsOp.folder (trimChars (str "pics")) :: scanGo [] [] [] ∧
    scanGo ((fileMarker ++ str "pics") :: []) [] [] =
      scanGo [] (trimChars (str "pics")) [] ∧
    (∀ (ls : List Str) (cur' : Str) (buf' : List Str) (q c : Str),
      FsOp.write q c ∈ scanGo ls cur' buf' → q ≠ []) :=
  c6_path_extraction (str "pics") [] [] [] (by decide)

/-- Claim C7 as stated is false: the pathless marker line `'```folder:'`
does NOT produce zero filesystem operations — `createFolder('')` is still
invoked (with the empty path). -/
theorem c7_counterexample :
    processFileCreation (str "```folder:") = [FsOp.folder []] ∧
    [FsOp.folder []] ≠ ([] : List FsOp) := by
  decide

/-- Claim C7 (amended). A pathless file marker performs zero filesystem
operations: outside a block it leaves the scan exactly where it was, and
inside an open block it only flushes that block (the prior directive's
write) and closes it; a pathless FOLDER marker, by contrast, still
invokes the folder operation with the empty path, whose failure
AiBuild.js's `createFolder` catches and logs, so nothing raises and the
scan continues. -/
theorem c7_pathless_markers (rest : List Str) (buf : List Str) (cur : Str)
    (hcur : cur ≠ []) :
    scanGo (fileMarker :: rest) [] buf = scanGo rest [] [] ∧
    scanGo (fileMarker :: rest) cur buf =
      FsOp.write cur (joinLines buf) :: scanGo rest [] [] ∧
    processFileCreation (str "```folder:") = [FsOp.folder []] ∧
    (∀ io : FaultModel,
      runOps (aiBuildHandler io) (processFileCreation (str "```folder:")) =
        ([FsOp.folder []], [createFolder io []], none)) := by
  have hno : folderMarker.isPrefixOf fileMarker = false := by decide
  have hfi : fileMarker.isPrefixOf fileMarker = true := by decide
  have hext : extractPath fileMarker = [] := by decide
  refine ⟨?_, ?_, by decide, ?_⟩
  · simp [scanGo, hno, hfi, hext]
  · simp [scanGo, hno, hfi, hext, hcur]
  · intro io
    have hops : processFileCreation (str "```folder:") = [FsOp.folder []] := by
      decide
    rw [hops]
    simpa [aiBuildLog] using runOps_aiBuild io [FsOp.folder []]

theorem c7_pathless_markers_witness :
    scanGo (fileMarker :: []) [] [str "A"] = scanGo [] [] [] ∧
    scanGo (fileMarker :: []) (str "x") [str "A"] =
      FsOp.write (str "x") (joinLines [str "A"]) :: scanGo [] [] [] ∧
    processFileCreation (str "```folder:") = [FsOp.folder []] ∧
    (∀ io : FaultModel,
      runOps (aiBuildHandler io) (processFileCreation (str "```folder:")) =
        ([FsOp.folder []], [createFolder io []], none)) :=
  c7_pathless_markers [] [str "A"] (str "x") (by decide)

/-- Claim C8 as stated is false: with the block for `x` open, the line
`'```file:'` — which is not the bare close fence — also triggers the
close-and-write-then-clear behaviour: the buffered content is written to
`x` and the scanner is left with no open block; on the full input
`'```file:x\nA\n```file:'` the trailing line closes the block instead of
being buffered as content. -/
theorem c8_counterexample :
    scanGo [fileMarker] (str "x") [str "A"] =
      [FsOp.write (str "x") (joinLines [str "A"])] ∧
    scanState [fileMarker] (str "x") [str "A"] = ([], []) ∧
    fileMarker ≠ fence ∧
    processFileCreation (str "```file:x\nA\n```file:") =
      [FsOp.write (str "x") (str "A")] ∧
    str "A" ≠ str "A\n```file:" := by
  decide

/-- Claim C8 (amended). In `processFileCreation`, with an open block, a
non-marker line triggers close-and-write-then-clear exactly when it is
the bare fence, and any other non-marker line is buffered as content;
additionally a file-open marker whose extracted path is empty also
flushes and leaves the scanner closed. In `implementEvolution`, any line
starting with the fence that is not a file-open marker closes an open
block. -/
theorem c8_close_conditions (line : Str) (rest : List Str) (cur : Str)
    (buf : List Str) (hcur : cur ≠ [])
    (h1 : folderMarker.isPrefixOf line = false)
    (h2 : fileMarker.isPrefixOf line = false) :
    (line = fence →
      scanGo (line :: rest) cur buf =
        FsOp.write cur (joinLines buf) :: scanGo rest [] []) ∧
    (line ≠ fence →
      scanGo (line :: rest) cur buf = scanGo rest cur (buf ++ [line])) ∧
    (∀ l', fileMarker.isPrefixOf l' = true → extractPath l' = [] →
      scanGo (l' :: rest) cur buf =
        FsOp.write cur (joinLines buf) :: scanGo rest [] []) ∧
    (∀ l', fence.isPrefixOf l' = true → fileMarker.isPrefixOf l' = false →
      evGo (l' :: rest) cur buf =
        FsOp.write cur (joinLines buf) :: evGo rest [] []) := by
  refine ⟨?_, ?_, ?_, ?_⟩
  · intro hl
    subst hl
    simp [scanGo, h1, h2, hcur]
  · intro hl
    simp [scanGo, h1, h2, hl, hcur]
  · intro l' hfi hext
    obtain ⟨tail, rfl⟩ := List.isPrefixOf_iff_prefix.mp hfi
    simp [scanGo, folderMarker_not_prefix_file, fileMarker_prefix_self,
      hext, hcur]
  · intro l' hfe hnfi
    simp [evGo, hnfi, hfe, hcur]

theorem c8_close_conditions_witness :
    scanGo [str "```json"] (str "x") [str "A"] =
      scanGo [] (str "x") ([str "A"] ++ [str "```json"]) ∧
    evGo [str "```json"] (str "x") [str "A"] =
      FsOp.write (str "x") (joinLines [str "A"]) :: evGo [] [] [] :=
  ⟨(c8_close_conditions (str "```json") [] (str "x") [str "A"]
      (by decide) (by decide) (by decide)).2.1 (by decide),
    (c8_close_conditions (str "```json") [] (str "x") [str "A"]
      (by decide) (by decide) (by decide)).2.2.2 (str "```json")
      (by decide) (by decide)⟩

/-- Claim C9 as stated is false for
advanced_self_upgrading_assistant.js, whose `processFileCreation` /
`writeFile` have no try/catch: when creating folder `a` fails, the
exception propagates, folder `b` — also demanded by the response — is
never attempted, and the scan of the rest of the response is aborted. -/
theorem c9_counterexample :
    processFileCreation (str "```folder:a\n```folder:b") =
      [FsOp.folder (str "a"), FsOp.folder (str "b")] ∧
    runOps (advancedHandler failOnFolderA)
        (processFileCreation (str "```folder:a\n```folder:b")) =
      ([FsOp.folder (str "a")], [], some (str "EACCES")) ∧
    FsOp.folder (str "b") ∉
      (runOps (advancedHandler failOnFolderA)
        (processFileCreation (str "```folder:a\n```folder:b"))).1 := by
  decide

/-- Claim C9 (amended). In AiBuild.js every materializer failure is
caught inside `createFolder`/`writeFile`: whatever the fault model does,
every scanned operation is attempted, one log line is produced per
operation, no exception escapes — and the log line always embeds the
offending path. (In advanced_self_upgrading_assistant.js the
corresponding calls are uncaught and abort the scan, see the
counterexample.) -/
theorem c9_failures_caught_and_logged (io : FaultModel) (ops : List FsOp)
    (p c : Str) :
    runOps (aiBuildHandler io) ops = (ops, ops.map (aiBuildLog io), none) ∧
    p <:+: createFolder io p ∧
    p <:+: writeFile io p c :=
  ⟨runOps_aiBuild io ops, createFolder_log_has_path io p,
    writeFile_log_has_path io p c⟩

/-- Claim C10 (confirmed). On a successful attempt `generateAIResponse`
appends exactly the user prompt then the model response to the history
and caps it with `limitConversationHistory`: the final history is the
suffix of `h ++ [user, model]` obtained by dropping only the oldest
entries, and its length never exceeds 10. -/
theorem c10_success_appends_and_caps (call : Nat → CallOutcome) (p t : Str)
    (retries : Nat) (h : List HistEntry) (hr : 1 ≤ retries)
    (hc : call 1 = CallOutcome.ok t) :
    (generateAIResponse call p retries h).hist =
      limitConversationHistory 10
        (h ++ [(⟨Role.user, p⟩ : HistEntry), ⟨Role.model, t⟩]) ∧
    (generateAIResponse call p retries h).hist =
      (h ++ [(⟨Role.user, p⟩ : HistEntry), ⟨Role.model, t⟩]).drop
        ((h.length + 2) - 10) ∧
    (generateAIResponse call p retries h).hist.length =
      min (h.length + 2) 10 ∧
    List.IsSuffix (generateAIResponse call p retries h).hist
      (h ++ [(⟨Role.user, p⟩ : HistEntry), ⟨Role.model, t⟩]) := by
  have hg := generateAIResponse_first_success call p t retries h hr hc
  rw [hg]
  have hlen : (h ++ [(⟨Role.user, p⟩ : HistEntry), ⟨Role.model, t⟩]).length =
      h.length + 2 := by simp
  refine ⟨rfl, ?_, ?_, ?_⟩
  · rw [limitConversationHistory_eq_drop, hlen]
  · rw [limitConversationHistory_eq_drop, List.length_drop, hlen]
    omega
  · rw [limitConversationHistory_eq_drop]
    exact List.drop_suffix _ _

theorem c10_success_appends_and_caps_witness :
    (generateAIResponse (fun _ => CallOutcome.ok (str "T")) (str "P") 5
        (List.replicate 12 ⟨Role.user, str "old"⟩)).hist =
      limitConversationHistory 10
        (List.replicate 12 ⟨Role.user, str "old"⟩ ++
          [⟨Role.user, str "P"⟩, ⟨Role.model, str "T"⟩]) ∧
    (generateAIResponse (fun _ => CallOutcome.ok (str "T")) (str "P") 5
        (List.replicate 12 ⟨Role.user, str "old"⟩)).hist.length =
      min ((List.replicate 12 (⟨Role.user, str "old"⟩ : HistEntry)).length + 2)
        10 :=
  ⟨(c10_success_appends_and_caps (fun _ => CallOutcome.ok (str "T"))
      (str "P") (str "T") 5 (List.replicate 12 ⟨Role.user, str "old"⟩)
      (by decide) rfl).1,
    (c10_success_appends_and_caps (fun _ => CallOutcome.ok (str "T"))
      (str "P") (str "T") 5 (List.replicate 12 ⟨Role.user, str "old"⟩)
      (by decide) rfl).2.2.1⟩
